import Mathlib

/-
Verification of the hermit chat-session subsystem: a shallow embedding of the
summarization policy, history store and chat loop from
`src/hermit/cli_utils.py`, `src/hermit/cli.py` and `src/hermit/server_utils.py`,
with theorems settling the behavioural claims about them.

External collaborators (the `localgrid` token counter, the JSON codec, the
completion provider, timestamps) are parameters of the embedded functions:
a token counter is a function `String → Nat` (or `String → Except String Nat`
when its failure behaviour matters), a line codec is `Turn → String` /
`String → Option Turn`, a provider outcome is an `Except` or a stream outcome
value, and timestamps are opaque strings.
-/

namespace Hermit

/-- One conversation turn, as persisted by the chat loop: the Python dicts
`{"role": ..., "content": ..., "timestamp": ...}`. Equality of turns is the
Python dict value equality used by `msg == history[0]` in `summarize_text`. -/
structure Turn where
  role : String
  content : String
  timestamp : String
deriving DecidableEq, Repr

/-- The window-selection loop of `summarize_text` (cli_utils.py lines 330-343):

    window_count = 0
    messages_to_summarize = []
    for msg in history:
        if msg == history[0]:
            continue
        extra_tokens = count_tokens(msg["content"], config["active_model"])
        if (window_count + extra_tokens) < max_context:
            window_count += extra_tokens
            messages_to_summarize.append(msg)
        else:
            break

`first` is `history[0]`; the function walks the remaining list with the running
accumulator `acc` (`window_count`) and returns the selected messages, the final
accumulator, and the turn at which the loop `break`-ed (`none` when the list was
exhausted without a break). -/
def summarizeWindowAux (tok : String → Nat) (first : Turn) (maxContext : Nat) :
    List Turn → Nat → List Turn × Nat × Option Turn
  | [], acc => ([], acc, none)
  | msg :: rest, acc =>
    if msg = first then
      summarizeWindowAux tok first maxContext rest acc
    else
      let extra := tok msg.content
      if acc + extra < maxContext then
        let r := summarizeWindowAux tok first maxContext rest (acc + extra)
        (msg :: r.1, r.2)
      else
        ([], acc, some msg)

/-- The window selection of `summarize_text` on a whole history: `history[0]`
is read first (an empty history raises IndexError before the loop, modelled as
`none`), and the loop then runs over the entire history, skipping every element
equal to `history[0]`. -/
def summarize_window (tok : String → Nat) (history : List Turn) (maxContext : Nat) :
    Option (List Turn × Nat × Option Turn) :=
  match history with
  | [] => none
  | h :: _ => some (summarizeWindowAux tok h maxContext history 0)

/-- Token sum of a list of turns under a counter, `Σ tok(turn.content)`. -/
def window_tokens (tok : String → Nat) (w : List Turn) : Nat :=
  (w.map fun m => tok m.content).sum

/-- The effectful tail of `summarize_text` (cli_utils.py lines 328-394) as a
function of its external inputs, returning the error raised (if any) together
with the session file content after the call.  Order of effects, as in the
source: `history[0]` is read (IndexError on an empty history), the window is
selected, the provider is called (`make_api_request_async`, which raises on
failure), the file is read, `lines[0]` is taken (IndexError on an empty file),
and only then is the file rewritten as
`system_line, "Summary: " + response, lines[1 + len(window):]`.
An exception at any point before the rewrite leaves the file unchanged. -/
def summarize_text_run (tok : String → Nat) (serialize : Turn → String) (ts : String)
    (history : List Turn) (maxContext : Nat)
    (provider : Except String String) (file : List String) :
    Option String × List String :=
  match history with
  | [] => (some "IndexError: history[0]", file)
  | h :: _ =>
    let w := (summarizeWindowAux tok h maxContext history 0).1
    match provider with
    | .error e => (some e, file)
    | .ok response =>
      match file with
      | [] => (some "IndexError: lines[0]", file)
      | system_line :: _ =>
        let lines_to_keep := file.drop (1 + w.length)
        let summary_line := serialize ⟨"system", "Summary: " ++ response, ts⟩
        (none, system_line :: summary_line :: lines_to_keep)

/-- A sequence of summarization passes against the same session file: each pass
has its own history snapshot, target, provider outcome and timestamp, and the
file content is threaded through `summarize_text_run`. -/
def summarize_passes (tok : String → Nat) (serialize : Turn → String) :
    List (List Turn × Nat × Except String String × String) → List String → List String
  | [], file => file
  | p :: rest, file =>
      summarize_passes tok serialize rest
        (summarize_text_run tok serialize p.2.2.2 p.1 p.2.1 p.2.2.1 file).2

/-- Unfolding equation for the window-selection loop on a cons cell. -/
theorem summarizeWindowAux_cons (tok : String → Nat) (first : Turn) (T : Nat)
    (msg : Turn) (rest : List Turn) (acc : Nat) :
    summarizeWindowAux tok first T (msg :: rest) acc =
      if msg = first then summarizeWindowAux tok first T rest acc
      else if acc + tok msg.content < T then
        (msg :: (summarizeWindowAux tok first T rest (acc + tok msg.content)).1,
          (summarizeWindowAux tok first T rest (acc + tok msg.content)).2)
      else ([], acc, some msg) := by
  rfl

/-- The accumulator of the window loop never passes the target. -/
theorem summarizeWindowAux_sum_le (tok : String → Nat) (first : Turn) (T : Nat) :
    ∀ (l : List Turn) (acc : Nat), acc ≤ T →
      (summarizeWindowAux tok first T l acc).2.1 ≤ T := by
  intro l
  induction l with
  | nil => intro acc hacc; exact hacc
  | cons msg rest ih =>
    intro acc hacc
    rw [summarizeWindowAux_cons]
    split_ifs with hm hlt
    · exact ih acc hacc
    · exact ih _ (le_of_lt hlt)
    · exact hacc

/-- The final accumulator is the initial one plus the token sum of the
selected window. -/
theorem summarizeWindowAux_sum_eq (tok : String → Nat) (first : Turn) (T : Nat) :
    ∀ (l : List Turn) (acc : Nat),
      (summarizeWindowAux tok first T l acc).2.1 =
        acc + window_tokens tok (summarizeWindowAux tok first T l acc).1 := by
  intro l
  induction l with
  | nil => intro acc; simp [summarizeWindowAux, window_tokens]
  | cons msg rest ih =>
    intro acc
    rw [summarizeWindowAux_cons]
    split_ifs with hm hlt
    · exact ih acc
    · have h := ih (acc + tok msg.content)
      simp only [window_tokens, List.map_cons, List.sum_cons] at h ⊢
      omega
    · simp [window_tokens]

/-- When the loop `break`s at a turn, including that turn would reach or pass
the target. -/
theorem summarizeWindowAux_stop_ge (tok : String → Nat) (first : Turn) (T : Nat) :
    ∀ (l : List Turn) (acc : Nat) (t : Turn),
      (summarizeWindowAux tok first T l acc).2.2 = some t →
      T ≤ (summarizeWindowAux tok first T l acc).2.1 + tok t.content := by
  intro l
  induction l with
  | nil => intro acc t h; simp [summarizeWindowAux] at h
  | cons msg rest ih =>
    intro acc t h
    rw [summarizeWindowAux_cons] at h ⊢
    split_ifs at h ⊢ with hm hlt
    · exact ih acc t h
    · exact ih _ t h
    · have h' : some msg = some t := h
      cases h'
      show T ≤ acc + tok msg.content
      omega

/-- The first turn (and any turn equal to it) is never part of the window. -/
theorem summarizeWindowAux_not_first (tok : String → Nat) (first : Turn) (T : Nat) :
    ∀ (l : List Turn) (acc : Nat), first ∉ (summarizeWindowAux tok first T l acc).1 := by
  intro l
  induction l with
  | nil => intro acc; simp [summarizeWindowAux]
  | cons msg rest ih =>
    intro acc
    rw [summarizeWindowAux_cons]
    split_ifs with hm hlt
    · exact ih acc
    · intro hmem
      rcases List.mem_cons.1 hmem with hfm | hfm
      · exact hm hfm.symm
      · exact ih _ hfm
    · simp

/-- A leading element equal to the first turn is skipped. -/
theorem summarizeWindowAux_skip_head (tok : String → Nat) (first : Turn) (T : Nat)
    (l : List Turn) (acc : Nat) :
    summarizeWindowAux tok first T (first :: l) acc =
      summarizeWindowAux tok first T l acc := by
  rw [summarizeWindowAux_cons, if_pos rfl]

/-- Deleting an occurrence of the first turn anywhere in the walked list does
not change the outcome of the window loop: such an occurrence is skipped. -/
theorem summarizeWindowAux_erase (tok : String → Nat) (first : Turn) (T : Nat)
    (post : List Turn) :
    ∀ (pre : List Turn) (acc : Nat),
      summarizeWindowAux tok first T (pre ++ first :: post) acc =
        summarizeWindowAux tok first T (pre ++ post) acc := by
  intro pre
  induction pre with
  | nil =>
    intro acc
    simpa using summarizeWindowAux_skip_head tok first T post acc
  | cons m pre' ih =>
    intro acc
    rw [List.cons_append, List.cons_append, summarizeWindowAux_cons,
      summarizeWindowAux_cons]
    split_ifs with hm hlt
    · exact ih acc
    · rw [ih]
    · rfl

/-- When no walked turn equals the first turn, the window is a contiguous
prefix of the walked list. -/
theorem summarizeWindowAux_take (tok : String → Nat) (first : Turn) (T : Nat) :
    ∀ (l : List Turn) (acc : Nat), (∀ m ∈ l, m ≠ first) →
      (summarizeWindowAux tok first T l acc).1 =
        l.take (summarizeWindowAux tok first T l acc).1.length := by
  intro l
  induction l with
  | nil => intro acc _; rfl
  | cons msg rest ih =>
    intro acc hnd
    rw [summarizeWindowAux_cons, if_neg (hnd msg (List.mem_cons_self msg rest))]
    split_ifs with hlt
    · have h := ih (acc + tok msg.content) (fun m hm => hnd m (List.mem_cons_of_mem msg hm))
      simp only [List.length_cons, List.take_succ_cons]
      exact congrArg (msg :: ·) h
    · rfl

/-- C1: the window selected by `summarize_text` excludes the first/persona
turn, its token sum (the final `window_count`) is at most the summarize target
`T`, and when the walk stopped at a turn (`break`), adding that first turn
beyond the window would make the sum reach or exceed `T` — the boundary case
where adding it makes the sum exactly `T` also stops the walk. -/
theorem summarize_window_greedy (tok : String → Nat) (h : Turn) (rest : List Turn)
    (T : Nat) (w : List Turn) (c : Nat) (st : Option Turn)
    (hw : summarize_window tok (h :: rest) T = some (w, c, st)) :
    h ∉ w ∧ c = window_tokens tok w ∧ c ≤ T ∧
      ∀ t, st = some t → T ≤ c + tok t.content := by
  have hw' : summarizeWindowAux tok h T (h :: rest) 0 = (w, c, st) :=
    Option.some.inj hw
  refine ⟨?_, ?_, ?_, ?_⟩
  · have := summarizeWindowAux_not_first tok h T (h :: rest) 0
    rwa [hw'] at this
  · have := summarizeWindowAux_sum_eq tok h T (h :: rest) 0
    rw [hw'] at this
    simpa using this
  · have := summarizeWindowAux_sum_le tok h T (h :: rest) 0 (Nat.zero_le T)
    rwa [hw'] at this
  · intro t ht
    have := summarizeWindowAux_stop_ge tok h T (h :: rest) 0 t
    rw [hw'] at this
    exact this ht

/-- A ten-turn demo tail whose turns all count 50 tokens under the constant
counter `fun _ => 50`. -/
def demoRest : List Turn :=
  [⟨"user", "u1", "s1"⟩, ⟨"assistant", "a1", "s2"⟩, ⟨"user", "u2", "s3"⟩,
   ⟨"assistant", "a2", "s4"⟩, ⟨"user", "u3", "s5"⟩, ⟨"assistant", "a3", "s6"⟩,
   ⟨"user", "u4", "s7"⟩, ⟨"assistant", "a4", "s8"⟩, ⟨"user", "u5", "s9"⟩,
   ⟨"assistant", "a5", "s10"⟩]

/-- The persona turn used in the concrete instances. -/
def personaTurn : Turn := ⟨"system", "persona", "t0"⟩

/-- Witness for C1 at the spec scenario: ten 50-token turns and target 220
select a window of four turns summing to 200, stopping at the fifth turn
(200 + 50 = 250 would exceed 220). -/
theorem summarize_window_greedy_witness :
    summarize_window (fun _ => 50) (personaTurn :: demoRest) 220 =
      some (demoRest.take 4, 200, some ⟨"user", "u3", "s5"⟩) ∧
    (personaTurn ∉ demoRest.take 4 ∧
      200 = window_tokens (fun _ => 50) (demoRest.take 4) ∧ 200 ≤ 220 ∧
      ∀ t, (some (⟨"user", "u3", "s5"⟩ : Turn) : Option Turn) = some t →
        220 ≤ 200 + (fun _ => 50) t.content) :=
  ⟨by decide,
   summarize_window_greedy (fun _ => 50) personaTurn demoRest 220
     (demoRest.take 4) 200 (some ⟨"user", "u3", "s5"⟩) (by decide)⟩

/-- C10: exclusion from the summarization window is by value equality with the
history's first element, not by position.  A later turn equal to the first
turn is skipped exactly like the first one: deleting that occurrence leaves
the selected window, its token sum and the stopping turn unchanged, so it is
never included in the window and its tokens never count toward the window sum;
in particular the first turn's value never occurs in the window. -/
theorem summarize_window_skips_by_value (tok : String → Nat) (h : Turn)
    (T : Nat) (pre post : List Turn) :
    summarize_window tok (h :: (pre ++ h :: post)) T =
      summarize_window tok (h :: (pre ++ post)) T ∧
    ∀ w c st, summarize_window tok (h :: (pre ++ h :: post)) T = some (w, c, st) →
      h ∉ w := by
  constructor
  · show some _ = some _
    rw [summarizeWindowAux_skip_head, summarizeWindowAux_skip_head,
      summarizeWindowAux_erase]
  · intro w c st hw
    have hw' : summarizeWindowAux tok h T (h :: (pre ++ h :: post)) 0 = (w, c, st) :=
      Option.some.inj hw
    have := summarizeWindowAux_not_first tok h T (h :: (pre ++ h :: post)) 0
    rwa [hw'] at this

/-- A user turn of four characters, for the duplicate-persona instances. -/
def turnA : Turn := ⟨"user", "aaaa", "ta"⟩

/-- An assistant turn of four characters, for the duplicate-persona
instances. -/
def turnB : Turn := ⟨"assistant", "bbbb", "tb"⟩

/-- Witness for C10: in the history `[persona, a, persona, b]` the duplicate
of the persona turn is skipped and the walk continues past it, selecting the
window `[a, b]`; the persona value is not in the window. -/
theorem summarize_window_skips_by_value_witness :
    summarize_window String.length
        (personaTurn :: ([turnA] ++ personaTurn :: [turnB])) 100 =
      some ([turnA, turnB], 8, none) ∧
    personaTurn ∉ [turnA, turnB] :=
  ⟨by decide,
   (summarize_window_skips_by_value String.length personaTurn 100 [turnA] [turnB]).2
     [turnA, turnB] 8 none (by decide)⟩

/-- C2: if the completion provider call raises during a summarization pass,
the persisted session log is untouched — its content after the failed attempt
is byte-identical to its content before, for every history, target and session
file.  In the source the only write to the file happens after
`make_api_request_async` has returned successfully. -/
theorem summarize_text_run_provider_error (tok : String → Nat)
    (serialize : Turn → String) (ts : String) (history : List Turn) (T : Nat)
    (e : String) (file : List String) :
    (summarize_text_run tok serialize ts history T (.error e) file).2 = file := by
  cases history with
  | nil => rfl
  | cons h rest => rfl

/-- A single summarization pass never changes the first line of the session
file: on any failure the file is untouched, and on success the rewrite starts
with `lines[0]` itself. -/
theorem summarize_text_run_head (tok : String → Nat) (serialize : Turn → String)
    (ts : String) (history : List Turn) (T : Nat)
    (provider : Except String String) (file : List String) :
    (summarize_text_run tok serialize ts history T provider file).2.head? =
      file.head? := by
  cases history with
  | nil => rfl
  | cons h rest =>
    cases provider with
    | error e => rfl
    | ok response =>
      cases file with
      | nil => rfl
      | cons l ls => rfl

/-- C3: after any number of summarization passes (in particular after any
number of successful ones), the first line of the store is byte-identical to
the original first line and is never removed: the head of the file after the
passes equals the head before them, so a session log whose first line is the
original persona turn still starts with that exact line. -/
theorem summarize_passes_preserve_persona (tok : String → Nat)
    (serialize : Turn → String)
    (passes : List (List Turn × Nat × Except String String × String))
    (file : List String) :
    (summarize_passes tok serialize passes file).head? = file.head? := by
  induction passes generalizing file with
  | nil => rfl
  | cons p rest ih =>
    rw [summarize_passes, ih, summarize_text_run_head]

/-- Modelled from the claim's words (C4): the store the claim describes after
a successful pass — the persona turn, one new system turn whose content is
`"Summary: "` followed by the provider's text, then every turn that followed
the summarized window (the suffix of the tail after the window's last
element), with the summarized window deleted. -/
def summarize_store_spec (serialize : Turn → String) (ts : String) (persona : Turn)
    (tail window : List Turn) (response : String) : List String :=
  serialize persona :: serialize ⟨"system", "Summary: " ++ response, ts⟩ ::
    (match window.getLast? with
      | none => tail
      | some w => (tail.dropWhile (fun m => m != w)).drop 1).map serialize

/-- C4 counterexample: with the history `[persona, persona, a, b]` (a later
turn equal to the first), token counter `String.length` and target 5, the
selected window is `[a]`, yet the rewrite drops the first `len(window)` lines
after line 0 — it deletes the duplicate persona line and keeps the summarized
turn `a`'s line, so the rewritten store is not the claimed
persona + summary + turns-after-window store. -/
theorem summarize_text_run_counterexample :
    summarize_text_run String.length Turn.content "t9"
        [personaTurn, personaTurn, turnA, turnB] 5 (.ok "S")
        ["persona", "persona", "aaaa", "bbbb"] =
      (none, ["persona", "Summary: S", "aaaa", "bbbb"]) ∧
    summarize_window String.length [personaTurn, personaTurn, turnA, turnB] 5 =
      some ([turnA], 4, some turnB) ∧
    summarize_store_spec Turn.content "t9" personaTurn
        [personaTurn, turnA, turnB] [turnA] "S" =
      ["persona", "Summary: S", "bbbb"] ∧
    "aaaa" ∈ ["persona", "Summary: S", "aaaa", "bbbb"] := by
  decide

/-- C4 (amended): after a successful summarization pass over a session file
whose lines are the serialized history, the rewritten store is exactly the
persona line, then one new system line `"Summary: " ++ response`, then the
file lines after the first `1 + len(window)` lines.  When no turn after the
first equals the first turn, the window is the contiguous block of turns
right after the persona, so this equals deleting exactly the summarized
window and keeping every turn that followed it. -/
theorem summarize_text_run_rewrite (tok : String → Nat) (serialize : Turn → String)
    (ts : String) (h : Turn) (rest : List Turn) (T : Nat) (resp : String)
    (hnd : ∀ m ∈ rest, m ≠ h) :
    summarize_text_run tok serialize ts (h :: rest) T (.ok resp)
        ((h :: rest).map serialize) =
      (none, serialize h :: serialize ⟨"system", "Summary: " ++ resp, ts⟩ ::
        ((rest.drop
          (summarizeWindowAux tok h T (h :: rest) 0).1.length).map serialize)) ∧
    (summarizeWindowAux tok h T (h :: rest) 0).1 =
      rest.take (summarizeWindowAux tok h T (h :: rest) 0).1.length := by
  have hskip : summarizeWindowAux tok h T (h :: rest) 0 =
      summarizeWindowAux tok h T rest 0 :=
    summarizeWindowAux_skip_head tok h T rest 0
  constructor
  · show (none, serialize h :: serialize ⟨"system", "Summary: " ++ resp, ts⟩ ::
        ((serialize h :: rest.map serialize).drop
          (1 + (summarizeWindowAux tok h T (h :: rest) 0).1.length))) = _
    rw [Nat.add_comm 1, List.drop_succ_cons, List.map_drop]
  · rw [hskip]
    exact summarizeWindowAux_take tok h T rest 0 hnd

/-- Witness for the amended C4 at the spec scenario: persona plus ten 50-token
turns with target 220; the window is the first four turns and the rewritten
store is persona + summary + the six remaining lines = 8 lines. -/
theorem summarize_text_run_rewrite_witness :
    (∀ m ∈ demoRest, m ≠ personaTurn) ∧
    (summarize_text_run (fun _ => 50) Turn.content "t9" (personaTurn :: demoRest)
        220 (.ok "S") ((personaTurn :: demoRest).map Turn.content) =
      (none, Turn.content personaTurn ::
        Turn.content ⟨"system", "Summary: " ++ "S", "t9"⟩ ::
        ((demoRest.drop
          (summarizeWindowAux (fun _ => 50) personaTurn 220
            (personaTurn :: demoRest) 0).1.length).map Turn.content)) ∧
      (summarizeWindowAux (fun _ => 50) personaTurn 220
          (personaTurn :: demoRest) 0).1 =
        demoRest.take
          (summarizeWindowAux (fun _ => 50) personaTurn 220
            (personaTurn :: demoRest) 0).1.length) ∧
    (summarize_text_run (fun _ => 50) Turn.content "t9" (personaTurn :: demoRest)
        220 (.ok "S") ((personaTurn :: demoRest).map Turn.content)).2.length = 8 :=
  ⟨by decide,
   summarize_text_run_rewrite (fun _ => 50) Turn.content "t9" personaTurn demoRest
     220 "S" (by decide),
   by decide⟩

/-- The loop state relevant to summarization scheduling in `run_chat_loop`
(cli_utils.py lines 249-314): the running token total and the number of
summarization threads started and not yet completed. -/
structure LoopState where
  totalTokens : Nat
  inFlight : Nat
deriving DecidableEq, Repr

/-- An observable event of the chat loop: a completed user/assistant turn
(adding the two token counts to the running total), or the completion of a
running summarization thread, which reloads the history and recomputes the
total (`run_summarization` in cli_utils.py lines 300-311). -/
inductive ChatEvent where
  | turn (userTokens aiTokens : Nat)
  | finish (reloadedTokens : Nat)
deriving DecidableEq, Repr

/-- One scheduling step of `run_chat_loop`: after a turn the loop adds the two
token counts and, whenever `total_tokens >= max_context`, unconditionally
starts a new summarization thread (`threading.Thread(...).start()`, lines
298-314) — there is no flag or join guarding against an earlier thread still
running.  A `finish` event completes one running thread. -/
def chat_loop_step (maxContext : Nat) (s : LoopState) : ChatEvent → LoopState
  | .turn u a =>
      let total := s.totalTokens + u + a
      if maxContext ≤ total then ⟨total, s.inFlight + 1⟩ else ⟨total, s.inFlight⟩
  | .finish n =>
      if s.inFlight = 0 then s else ⟨n, s.inFlight - 1⟩

/-- Running the chat loop scheduler over a sequence of events. -/
def chat_loop_run (maxContext : Nat) (s : LoopState) : List ChatEvent → LoopState
  | [] => s
  | e :: es => chat_loop_run maxContext (chat_loop_step maxContext s e) es

/-- C5 counterexample: with `max_context = 10`, two consecutive over-budget
turns with no summarization completion in between leave two summarization
threads in flight — the loop launches a second task while the first has not
completed, refuting the at-most-one-in-flight claim. -/
theorem chat_loop_two_in_flight :
    (chat_loop_run 10 ⟨0, 0⟩ [.turn 6 6, .turn 1 1]).inFlight = 2 ∧
    ¬ (chat_loop_run 10 ⟨0, 0⟩ [.turn 6 6, .turn 1 1]).inFlight ≤ 1 := by
  decide

/-- C5 (amended): the loop launches at most one new summarization task per
completed turn, and it launches one exactly when the running total after the
turn has reached `max_context`; nothing prevents several tasks from being in
flight at once. -/
theorem chat_loop_step_launch (maxContext : Nat) (s : LoopState) (e : ChatEvent) :
    (chat_loop_step maxContext s e).inFlight ≤ s.inFlight + 1 ∧
    ∀ u a, (chat_loop_step maxContext s (.turn u a)).inFlight = s.inFlight + 1 ↔
      maxContext ≤ s.totalTokens + u + a := by
  constructor
  · cases e with
    | turn u a =>
      simp only [chat_loop_step]
      split_ifs <;> dsimp only <;> omega
    | finish n =>
      simp only [chat_loop_step]
      split_ifs with h0
      · omega
      · dsimp only
        omega
  · intro u a
    simp only [chat_loop_step]
    split_ifs with hle
    · dsimp only
      simpa using hle
    · dsimp only
      simpa using hle

/-- Token accounting as the chat loop and the summarization policy actually
perform it when the external counter can fail: `count_tokens` is called with
no surrounding try/except (cli_utils.py lines 249-251, 272, 287, 308-311), so
the first failure propagates.  The counter is modelled as
`String → Except String Nat`. -/
def total_tokens_exc (counter : String → Except String Nat) :
    List Turn → Except String Nat
  | [] => .ok 0
  | m :: rest => do
      let t ← counter m.content
      let r ← total_tokens_exc counter rest
      .ok (t + r)

/-- The window-selection loop of `summarize_text` with a fallible counter:
`count_tokens` is called for each non-skipped turn (line 338) with no
try/except, so its failure propagates out of the summarization pass. -/
def summarize_window_exc (counter : String → Except String Nat) (first : Turn)
    (T : Nat) : List Turn → Nat → Except String (List Turn × Nat × Option Turn)
  | [], acc => .ok ([], acc, none)
  | msg :: rest, acc =>
    if msg = first then summarize_window_exc counter first T rest acc
    else do
      let extra ← counter msg.content
      if acc + extra < T then
        let r ← summarize_window_exc counter first T rest (acc + extra)
        .ok (msg :: r.1, r.2)
      else .ok ([], acc, some msg)

/-- Modelled from the spec (C6): the `tokensFor` contract the claim describes,
treating a counter failure as 0. -/
def tokensFor_spec (counter : String → Except String Nat) (s : String) : Nat :=
  (counter s).toOption.getD 0

/-- Modelled from the spec (C6): the total the claim says the loop would use,
summing `tokensFor` with failures counted as 0. -/
def total_tokens_spec (counter : String → Except String Nat)
    (history : List Turn) : Nat :=
  (history.map fun m => tokensFor_spec counter m.content).sum

/-- C6 counterexample: with a counter that always fails, the chat loop's token
accounting propagates the failure instead of using the 0 the claim requires:
the computed total is the error, not `ok` of the spec total. -/
theorem total_tokens_exc_counterexample :
    total_tokens_exc (fun _ => .error "tokenizer failure") [turnA] =
      .error "tokenizer failure" ∧
    total_tokens_spec (fun _ => .error "tokenizer failure") [turnA] = 0 ∧
    total_tokens_exc (fun _ => .error "tokenizer failure") [turnA] ≠
      .ok (total_tokens_spec (fun _ => .error "tokenizer failure") [turnA]) :=
  ⟨rfl, rfl, fun h => Except.noConfusion h⟩

/-- C6 (amended): token counting failures are not caught: both the chat
loop's total and the summarization policy's window walk call the external
counter directly, so the first counter failure propagates as an error instead
of being treated as 0. -/
theorem token_counting_propagates_failure (counter : String → Except String Nat)
    (e : String) (m : Turn) (rest : List Turn)
    (hc : counter m.content = .error e) :
    total_tokens_exc counter (m :: rest) = .error e ∧
    ∀ (first : Turn) (T acc : Nat), m ≠ first →
      summarize_window_exc counter first T (m :: rest) acc = .error e := by
  constructor
  · simp only [total_tokens_exc, hc]
    rfl
  · intro first T acc hne
    simp only [summarize_window_exc, if_neg hne, hc]
    rfl

/-- Witness for the amended C6 at a concrete failing counter. -/
theorem token_counting_propagates_failure_witness :
    ((fun _ => (.error "boom" : Except String Nat)) turnA.content = .error "boom") ∧
    (total_tokens_exc (fun _ => .error "boom") [turnA, turnB] = .error "boom" ∧
      ∀ (first : Turn) (T acc : Nat), turnA ≠ first →
        summarize_window_exc (fun _ => .error "boom") first T [turnA, turnB] acc =
          .error "boom") :=
  ⟨rfl,
   token_counting_propagates_failure (fun _ => .error "boom") "boom" turnA [turnB]
     rfl⟩

/-- Python `str.strip()` modelled on the character list: leading and trailing
whitespace removed. -/
def pyStrip (s : String) : String :=
  ⟨((s.toList.dropWhile Char.isWhitespace).reverse.dropWhile
      Char.isWhitespace).reverse⟩

/-- Python `str.lower()` modelled on the character list. -/
def pyLower (s : String) : String :=
  ⟨s.toList.map Char.toLower⟩

/-- The history loader inside `chat_recall` (cli.py lines 196-205): each line
is parsed and appended, and a `json.JSONDecodeError` is caught per line —
the malformed line is skipped with a warning and the load continues.  The
JSON codec is modelled as `parse : String → Option Turn`. -/
def chat_recall_load (parse : String → Option Turn) (lines : List String) :
    List Turn :=
  lines.filterMap parse

/-- `load_chat_history` (cli_utils.py lines 317-325): each line is stripped,
empty lines are skipped, and `json.loads` is called with no try/except — a
malformed non-empty line raises and aborts the whole load.  The error value
carries the offending (stripped) line. -/
def load_chat_history (parse : String → Option Turn) :
    List String → Except String (List Turn)
  | [] => .ok []
  | l :: rest =>
    if pyStrip l = "" then load_chat_history parse rest
    else
      match parse (pyStrip l) with
      | none => .error (pyStrip l)
      | some t => do
          let ts ← load_chat_history parse rest
          .ok (t :: ts)

/-- C7 counterexample: with a codec that only accepts the line `"ok"`, the
recall loader skips the malformed line and keeps loading, but
`load_chat_history` — used by the post-summarization reload — aborts at the
malformed line instead of skipping it, so not every loader tolerates
corruption. -/
theorem load_chat_history_counterexample :
    (fun s => if s = "ok" then some turnA else none) "bad" = none ∧
    chat_recall_load (fun s => if s = "ok" then some turnA else none)
      ["ok", "bad", "ok"] = [turnA, turnA] ∧
    load_chat_history (fun s => if s = "ok" then some turnA else none)
      ["ok", "bad", "ok"] = .error "bad" :=
  ⟨rfl, rfl, rfl⟩

/-- C7 (amended): the recall loader never aborts on a malformed line — it
returns the well-formed turns in order, skipping each malformed line and
continuing — while `load_chat_history`, the loader used by the
post-summarization reload, aborts at the first malformed non-empty line. -/
theorem loaders_on_malformed_line (parse : String → Option Turn) (b : String)
    (pre post : List String) (hbad : parse b = none)
    (hbadt : parse (pyStrip b) = none) (hne : pyStrip b ≠ "")
    (hpre : ∀ l ∈ pre, pyStrip l = "" ∨ (parse (pyStrip l)).isSome = true) :
    chat_recall_load parse (pre ++ b :: post) =
      chat_recall_load parse pre ++ chat_recall_load parse post ∧
    load_chat_history parse (pre ++ b :: post) = .error (pyStrip b) := by
  constructor
  · simp [chat_recall_load, List.filterMap_append, List.filterMap_cons, hbad]
  · induction pre with
    | nil =>
      simp only [List.nil_append, load_chat_history, if_neg hne, hbadt]
    | cons l pre' ih =>
      have hrest : ∀ l' ∈ pre', pyStrip l' = "" ∨ (parse (pyStrip l')).isSome = true :=
        fun l' hl' => hpre l' (List.mem_cons_of_mem l hl')
      rw [List.cons_append, load_chat_history]
      by_cases hblank : pyStrip l = ""
      · rw [if_pos hblank]
        exact ih hrest
      · rw [if_neg hblank]
        have hsome : (parse (pyStrip l)).isSome = true :=
          (hpre l (List.mem_cons_self l pre')).resolve_left hblank
        rcases hps : parse (pyStrip l) with _ | t
        · rw [hps] at hsome
          simp at hsome
        · show (do
              let ts ← load_chat_history parse (pre' ++ b :: post)
              Except.ok (t :: ts)) = Except.error (pyStrip b)
          rw [ih hrest]
          rfl

/-- Witness for the amended C7 at a concrete codec and file. -/
theorem loaders_on_malformed_line_witness :
    chat_recall_load (fun s => if s = "ok" then some turnA else none)
        (["ok"] ++ "bad" :: ["ok"]) =
      chat_recall_load (fun s => if s = "ok" then some turnA else none) ["ok"] ++
        chat_recall_load (fun s => if s = "ok" then some turnA else none) ["ok"] ∧
    load_chat_history (fun s => if s = "ok" then some turnA else none)
        (["ok"] ++ "bad" :: ["ok"]) = .error (pyStrip "bad") :=
  loaders_on_malformed_line (fun s => if s = "ok" then some turnA else none)
    "bad" ["ok"] ["ok"] (by decide) (by decide) (by decide) (by decide)

/-- Outcome of the daemon's streaming call to the completion provider in
`universal_ai_stream_with_context` (server_utils.py lines 69-93): the chunks
delivered before the stream ended (each chunk's `delta.content`, which may be
`None`), and how the stream ended — normally, with an `openai.APIStatusError`,
or with any other exception (timeouts, transport failures and malformed
streams all land in the generic `except Exception` arm). -/
inductive StreamOutcome where
  | success (chunks : List (Option String))
  | apiStatusError (chunks : List (Option String)) (statusCode : Nat)
  | genericError (chunks : List (Option String)) (details : String)
deriving DecidableEq, Repr

/-- The inline diagnostic yielded on `openai.APIStatusError`
(server_utils.py line 89). -/
def api_status_error_text (model : String) (code : Nat) : String :=
  "\n\nError communicating with the AI provider.\nDetails: The model \x27" ++
    model ++
    "\x27 may not exist or the provider returned an error (Status Code: " ++
    toString code ++ ")."

/-- The inline diagnostic yielded on any other provider exception
(server_utils.py line 93). -/
def generic_error_text (details : String) : String :=
  "\n\nError: Could not stream response. Details: " ++ details

/-- The daemon's chat stream generator `universal_ai_stream_with_context`:
non-`None` chunk contents are yielded in order; a provider error is caught
and surfaced as one final inline diagnostic chunk — the generator itself
never raises. -/
def universal_ai_stream_with_context (model : String) :
    StreamOutcome → List String
  | .success cs => cs.filterMap id
  | .apiStatusError cs code => cs.filterMap id ++ [api_status_error_text model code]
  | .genericError cs d => cs.filterMap id ++ [generic_error_text d]

/-- The inline diagnostic a given stream outcome produces, if any. -/
def stream_error_text (model : String) : StreamOutcome → Option String
  | .success _ => none
  | .apiStatusError _ code => some (api_status_error_text model code)
  | .genericError _ d => some (generic_error_text d)

/-- The accumulation performed by `transcribe_stream` (cli_utils.py lines
180-210): `full_response += chunk` over the streamed chunks, in arrival
order. -/
def transcribe_stream (chunks : List String) : String :=
  chunks.foldl (· ++ ·) ""

/-- Appending a final chunk appends its text to the accumulated response. -/
theorem transcribe_stream_append (l : List String) (e : String) :
    transcribe_stream (l ++ [e]) = transcribe_stream l ++ e := by
  simp [transcribe_stream, List.foldl_append]

/-- Whether the chat loop keeps running after an iteration. -/
inductive StepResult where
  | terminated
  | active
deriving DecidableEq, Repr

/-- The chat loop's per-session state: the in-memory history, the running
token total, and the lines of the persisted session log. -/
structure ChatState where
  history : List Turn
  totalTokens : Nat
  fileLines : List String
deriving DecidableEq, Repr

/-- One iteration of `run_chat_loop` (cli_utils.py lines 260-297) as a
function of the raw input line and the provider stream outcome.  The input is
stripped; the case-insensitive `/bye` check comes first and breaks the loop
with no state change; an empty prompt re-prompts with no state change;
otherwise the user turn is appended and persisted, the streamed response is
accumulated into the assistant turn's content, and the assistant turn is
appended and persisted, with both token counts added to the running total. -/
def run_chat_step (tok : String → Nat) (serialize : Turn → String) (ts : String)
    (model : String) (s : ChatState) (rawPrompt : String) (out : StreamOutcome) :
    ChatState × StepResult :=
  let prompt := pyStrip rawPrompt
  if pyLower prompt = "/bye" then (s, .terminated)
  else if prompt = "" then (s, .active)
  else
    let userTurn : Turn := ⟨"user", prompt, ts⟩
    let aiResponse := transcribe_stream (universal_ai_stream_with_context model out)
    let aiTurn : Turn := ⟨"assistant", aiResponse, ts⟩
    (⟨(s.history ++ [userTurn]) ++ [aiTurn],
      s.totalTokens + tok prompt + tok aiResponse,
      (s.fileLines ++ [serialize userTurn]) ++ [serialize aiTurn]⟩, .active)

/-- C9: in each iteration of the chat loop, an empty input line re-prompts
with no change to the in-memory history, the persisted log or the token
total; and exactly the case-insensitive token `/bye` terminates the loop,
with no turn appended or persisted for it — the iteration result is
`terminated` precisely when the stripped, lowercased input is `/bye`. -/
theorem run_chat_step_control (tok : String → Nat) (serialize : Turn → String)
    (ts : String) (model : String) (s : ChatState) (raw : String)
    (out : StreamOutcome) :
    (pyStrip raw = "" →
      run_chat_step tok serialize ts model s raw out = (s, .active)) ∧
    (pyLower (pyStrip raw) = "/bye" →
      run_chat_step tok serialize ts model s raw out = (s, .terminated)) ∧
    ((run_chat_step tok serialize ts model s raw out).2 = .terminated ↔
      pyLower (pyStrip raw) = "/bye") := by
  by_cases hbye : pyLower (pyStrip raw) = "/bye"
  · have hstep : run_chat_step tok serialize ts model s raw out = (s, .terminated) := by
      simp only [run_chat_step, hbye]
      rfl
    refine ⟨fun h => ?_, fun _ => hstep, ?_⟩
    · rw [h] at hbye
      exact absurd hbye (by decide)
    · rw [hstep]
      simp [hbye]
  · by_cases hempty : pyStrip raw = ""
    · have hstep : run_chat_step tok serialize ts model s raw out = (s, .active) := by
        simp only [run_chat_step, hempty]
        rw [if_neg ?_]
        · rfl
        · rw [hempty] at hbye
          exact hbye
      refine ⟨fun _ => hstep, fun h => absurd h hbye, ?_⟩
      rw [hstep]
      simp [hbye]
    · have hstep : (run_chat_step tok serialize ts model s raw out).2 = .active := by
        simp only [run_chat_step, if_neg hbye, if_neg hempty]
      refine ⟨fun h => absurd h hempty, fun h => absurd h hbye, ?_⟩
      rw [hstep]
      simp [hbye]

/-- Witness for C9: a whitespace-only line leaves the state unchanged and the
loop active; `" /ByE "` (stripped, case-insensitively `/bye`) terminates
with no state change. -/
theorem run_chat_step_control_witness :
    run_chat_step String.length Turn.content "t" "m" ⟨[], 0, []⟩ "   "
      (.success []) = (⟨[], 0, []⟩, .active) ∧
    run_chat_step String.length Turn.content "t" "m" ⟨[], 0, []⟩ " /ByE "
      (.success []) = (⟨[], 0, []⟩, .terminated) :=
  ⟨(run_chat_step_control String.length Turn.content "t" "m" ⟨[], 0, []⟩ "   "
      (.success [])).1 (by decide),
   (run_chat_step_control String.length Turn.content "t" "m" ⟨[], 0, []⟩ " /ByE "
      (.success [])).2.1 (by decide)⟩

/-- C8: every provider streaming error during a chat turn — bad status,
timeout, transport failure or malformed stream, all caught by the daemon's
stream handler — is recorded as inline diagnostic text inside the assistant
turn's content (as a suffix after the chunks that arrived), the iteration
completes without raising, and the loop stays active so the next user prompt
is accepted. -/
theorem run_chat_step_inline_error (tok : String → Nat) (serialize : Turn → String)
    (ts : String) (model : String) (s : ChatState) (raw : String)
    (out : StreamOutcome) (err : String)
    (herr : stream_error_text model out = some err)
    (hne : pyStrip raw ≠ "") (hnb : pyLower (pyStrip raw) ≠ "/bye") :
    (run_chat_step tok serialize ts model s raw out).2 = .active ∧
    ∃ body, (run_chat_step tok serialize ts model s raw out).1.history =
      s.history ++ [⟨"user", pyStrip raw, ts⟩, ⟨"assistant", body ++ err, ts⟩] := by
  cases out with
  | success cs => simp [stream_error_text] at herr
  | apiStatusError cs code =>
    obtain rfl : api_status_error_text model code = err := Option.some.inj herr
    constructor
    · simp only [run_chat_step, if_neg hnb, if_neg hne]
    · refine ⟨transcribe_stream (cs.filterMap id), ?_⟩
      simp only [run_chat_step, if_neg hnb, if_neg hne,
        universal_ai_stream_with_context, transcribe_stream_append]
      simp
  | genericError cs d =>
    obtain rfl : generic_error_text d = err := Option.some.inj herr
    constructor
    · simp only [run_chat_step, if_neg hnb, if_neg hne]
    · refine ⟨transcribe_stream (cs.filterMap id), ?_⟩
      simp only [run_chat_step, if_neg hnb, if_neg hne,
        universal_ai_stream_with_context, transcribe_stream_append]
      simp

/-- Witness for C8: a bad-status stream outcome after two chunks leaves the
loop active and records the inline diagnostic at the end of the assistant
turn. -/
theorem run_chat_step_inline_error_witness :
    (run_chat_step String.length Turn.content "t" "m" ⟨[], 0, []⟩ "hello"
      (.apiStatusError [some "hi", none, some "!"] 500)).2 = .active ∧
    ∃ body, (run_chat_step String.length Turn.content "t" "m" ⟨[], 0, []⟩ "hello"
        (.apiStatusError [some "hi", none, some "!"] 500)).1.history =
      (⟨[], 0, []⟩ : ChatState).history ++ [⟨"user", pyStrip "hello", "t"⟩,
        ⟨"assistant", body ++ api_status_error_text "m" 500, "t"⟩] :=
  run_chat_step_inline_error String.length Turn.content "t" "m" ⟨[], 0, []⟩
    "hello" (.apiStatusError [some "hi", none, some "!"] 500)
    (api_status_error_text "m" 500) rfl (by decide) (by decide)

end Hermit
